import Mathlib

/-
Verification of the fishdan/repo-ai scripts
(scripts/github-app-generate-jwt.py and
scripts/github-app-get-installation-token.py).

The Python code is shallowly embedded: Python strings are Lean Strings,
Python ints are Lean Ints, Python dicts are functions to Option, file and
network effects are passed in explicitly as values, and sys.exit(1) paths
become an error constructor.  All string primitives are re-implemented
structurally over the underlying character list so that every definition
evaluates inside the kernel.
-/

set_option autoImplicit false

namespace RepoAi

/-! ## Python string primitives -/

/-- Whitespace characters removed by Python str.strip() (ASCII subset:
space, tab, newline, carriage return, vertical tab, form feed). -/
def pyIsSpace (c : Char) : Bool :=
  c = ' ' || c = '\t' || c = '\n' || c = '\r' || c = '\x0b' || c = '\x0c'

/-- Python s.strip(): remove leading and trailing whitespace. -/
def pyStrip (s : String) : String :=
  ⟨((s.data.dropWhile pyIsSpace).reverse.dropWhile pyIsSpace).reverse⟩

/-- Character list p is an initial segment of character list s. -/
def isPre : List Char → List Char → Bool
  | [], _ => true
  | _ :: _, [] => false
  | p :: ps, c :: cs => p = c && isPre ps cs

/-- Python s.startswith(p). -/
def pyStartsWith (s p : String) : Bool := isPre p.data s.data

/-- Python s.endswith(p). -/
def pyEndsWith (s p : String) : Bool := isPre p.data.reverse s.data.reverse

/-- Python s.split(p, 1)[1] when s starts with p: drop the first
occurrence of p, which is at position 0. -/
def dropPre (p s : String) : String := ⟨s.data.drop p.data.length⟩

/-- Python s[:-n]: drop the last n characters. -/
def dropLast (s : String) (n : Nat) : String := ⟨s.data.take (s.data.length - n)⟩

/-- Python c in s for a single character. -/
def containsChar : List Char → Char → Bool
  | [], _ => false
  | c :: cs, x => if c = x then true else containsChar cs x

/-- Python sep in s for a one-character separator sep. -/
def pyContains (s : String) (c : Char) : Bool := containsChar s.data c

/-- Python bool(s) for a string: nonempty. -/
def pyTruthy (s : String) : Bool :=
  match s.data with
  | [] => false
  | _ :: _ => true

/-- Python s.split(sep) for a one-character separator, on character
lists.  Always returns at least one chunk; empty chunks are kept. -/
def splitChar (sep : Char) : List Char → List (List Char)
  | [] => [[]]
  | c :: cs =>
    match splitChar sep cs with
    | [] => [[]]
    | g :: gs => if c = sep then [] :: g :: gs else (c :: g) :: gs

/-- Python s.split(sep) for a one-character separator. -/
def pySplit (s : String) (sep : Char) : List String :=
  (splitChar sep s.data).map (fun l => ⟨l⟩)

/-- Python s.split(sep, 1)[0]: everything before the first occurrence of
the character (the whole string when the character is absent). -/
def takeBefore (s : String) (c : Char) : String :=
  ⟨s.data.takeWhile (fun x => x ≠ c)⟩

/-- Python s.split(sep, 1)[1] when sep occurs in s: everything after the
first occurrence of the character. -/
def afterFirst (s : String) (c : Char) : String :=
  ⟨(s.data.dropWhile (fun x => x ≠ c)).drop 1⟩

/-- Python s.split(sep, 1) for a one-character separator: at most one
split, at the first occurrence. -/
def splitOnce (s : String) (c : Char) : List String :=
  if pyContains s c then [takeBefore s c, afterFirst s c] else [s]

/-- Membership test on a list of strings (Python: x in list / x in set). -/
def containsStr : List String → String → Bool
  | [], _ => false
  | x :: xs, s => if x = s then true else containsStr xs s

/-! ## parse_github_full_name (get-installation-token script, lines 67-88) -/

/-- Post-processing shared by the three recognized prefixes: strip a
trailing ".git", split on "/", require at least two segments, join the
first two with "/". -/
def parseTail (path0 : String) : String :=
  match pySplit (if pyEndsWith path0 ".git" then dropLast path0 4 else path0) '/' with
  | a :: b :: _ => a ++ "/" ++ b
  | _ => ""

/-- Embedding of parse_github_full_name: empty input yields "", the
input is stripped of surrounding whitespace, then the three GitHub URL
prefixes are tried in order; any other prefix yields "". -/
def parse_github_full_name (remote_url : String) : String :=
  if remote_url = "" then ""
  else
    let normalized := pyStrip remote_url
    if pyStartsWith normalized "git@github.com:" then
      parseTail (dropPre "git@github.com:" normalized)
    else if pyStartsWith normalized "https://github.com/" then
      parseTail (dropPre "https://github.com/" normalized)
    else if pyStartsWith normalized "ssh://git@github.com/" then
      parseTail (dropPre "ssh://git@github.com/" normalized)
    else ""

/-- The claim's literal description of parse_github_full_name: the three
prefixes are checked on the input string itself (no whitespace
normalization is mentioned); on a match the remainder is stripped of a
trailing ".git", split on "/", and the first two of at least two
segments are joined; any other prefix yields the empty string. -/
def parseClaimLiteral (remote_url : String) : String :=
  if pyStartsWith remote_url "git@github.com:" then
    claimTail (dropPre "git@github.com:" remote_url)
  else if pyStartsWith remote_url "https://github.com/" then
    claimTail (dropPre "https://github.com/" remote_url)
  else if pyStartsWith remote_url "ssh://git@github.com/" then
    claimTail (dropPre "ssh://git@github.com/" remote_url)
  else ""
where
  /-- Post-processing in the claim's words. -/
  claimTail (rest : String) : String :=
    let noGit := if pyEndsWith rest ".git" then dropLast rest 4 else rest
    match pySplit noGit '/' with
    | seg1 :: seg2 :: _ => seg1 ++ "/" ++ seg2
    | _ => ""

/-! ## derive_required_repositories (get-installation-token script, lines 97-127) -/

/-- Embedding of the deduplication loop: keep nonempty entries on first
occurrence, preserving order. -/
def dedupe (l : List String) : List String :=
  l.foldl (fun acc repo => if pyTruthy repo && !(containsStr acc repo) then acc ++ [repo] else acc) []

/-- Embedding of derive_required_repositories as a function of the two
repository identities (the parse_github_full_name results for this
repository and for its parent directory).  none models the fatal
OwnerUndetermined exit. -/
def derive_required_repositories (repo_ai_full parent_full : String) : Option (List String) :=
  let owner :=
    if pyTruthy parent_full && pyContains parent_full '/' then takeBefore parent_full '/'
    else if pyTruthy repo_ai_full && pyContains repo_ai_full '/' then takeBefore repo_ai_full '/'
    else ""
  if owner = "" then none
  else
    let terraform_full := owner ++ "/fishdan-terraform"
    some (dedupe [repo_ai_full, terraform_full, parent_full])

/-- Owner of an owner/name identity: the segment before the first "/". -/
def ownerOf (s : String) : String := takeBefore s '/'

/-- An identity "yields an owner" (claim C3/C4 reading): it contains a
"/" and the segment before it is nonempty. -/
def yieldsOwner (s : String) : Bool :=
  pyContains s '/' && pyTruthy (ownerOf s)

/-- The claim's literal description of derive_required_repositories:
the owner comes from the parent identity when it yields one, else from
this repository's identity, and the derivation fails exactly when
neither yields an owner. -/
def deriveClaimLiteral (repo_ai_full parent_full : String) : Option (List String) :=
  if yieldsOwner parent_full then
    some (dedupe [repo_ai_full, ownerOf parent_full ++ "/fishdan-terraform", parent_full])
  else if yieldsOwner repo_ai_full then
    some (dedupe [repo_ai_full, ownerOf repo_ai_full ++ "/fishdan-terraform", parent_full])
  else none

/-- Amended description of derive_required_repositories: the owner is
the segment before the first "/" of the parent identity whenever the
parent identity is nonempty and contains a "/" (with no fallback to this
repository's identity in that case, even when that segment is empty);
otherwise it is taken the same way from this repository's identity when
that one is nonempty and contains a "/"; the derivation fails exactly
when the owner so chosen is empty.  On success the three candidates
this-repo, owner/fishdan-terraform, parent-repo are deduplicated with
empty entries dropped, preserving first occurrence order. -/
def deriveAmended (repo_ai_full parent_full : String) : Option (List String) :=
  let owner :=
    if pyTruthy parent_full && pyContains parent_full '/' then ownerOf parent_full
    else if pyTruthy repo_ai_full && pyContains repo_ai_full '/' then ownerOf repo_ai_full
    else ""
  if pyTruthy owner then
    some (dedupe [repo_ai_full, owner ++ "/fishdan-terraform", parent_full])
  else none

/-! ## read_config (both scripts, identical text) -/

/-- Processing of one config line: a line containing "=" is stripped of
surrounding whitespace and split at the first "="; the part before is
the key and the part after is the value; other lines leave the mapping
unchanged. -/
def configStep (cfg : String → Option String) (line : String) : String → Option String :=
  if pyContains line '=' then
    fun k => if k = takeBefore (pyStrip line) '=' then some (afterFirst (pyStrip line) '=') else cfg k
  else cfg

/-- Embedding of the read_config loop over the config file lines (each
line given without its trailing newline, which str.strip removes
anyway).  The resulting mapping is the Python dict: later assignments
to the same key win. -/
def read_config_lines (lines : List String) : String → Option String :=
  lines.foldl configStep (fun _ => none)

/-- The claim's literal description of read_config: a line containing
"=" maps the substring before the first "=" (as written on the line) to
everything after it with surrounding whitespace trimmed; lines without
"=" are ignored; the last occurrence of a key wins. -/
def readConfigClaimLiteral (lines : List String) : String → Option String :=
  lines.foldl
    (fun cfg line =>
      if pyContains line '=' then
        fun k => if k = takeBefore line '=' then some (pyStrip (afterFirst line '=')) else cfg k
      else cfg)
    (fun _ => none)

/-- Amended description of read_config, written as a recursion that
prefers the later lines: each line containing "=" is first trimmed of
surrounding whitespace and then split at the first "="; the key is the
part before the "=" (so it loses the line's leading whitespace but keeps
any spaces adjacent to the "="), the value is the part after
(keeping spaces after the "=" but losing the line's trailing
whitespace); lines without "=" are ignored; the last occurrence of a
key wins. -/
def readConfigAmended : List String → String → Option String
  | [] => fun _ => none
  | line :: rest => fun k =>
    match readConfigAmended rest k with
    | some v => some v
    | none =>
      if pyContains line '=' && k = takeBefore (pyStrip line) '=' then
        some (afterFirst (pyStrip line) '=')
      else none

/-! ## generate_jwt (both scripts, identical text) -/

/-- The JWT claim set built by generate_jwt.  The structure has exactly
the three fields the payload dict has. -/
structure JwtPayload where
  iss : String
  iat : Int
  exp : Int
deriving DecidableEq

/-- Error taxonomy of the scripts; each constructor is one of the
sys.exit(1) sites (uncaughtException is the main block's
except-Exception handler, reached e.g. by an IndexError). -/
inductive Err where
  | configNotFound
  | privateKeyNotFound
  | missingAppID
  | missingInstallationID
  | ownerUndetermined
  | transportError
  | malformedResponse
  | noTokenInResponse
  | missingRequiredRepositories (missing : List String)
  | uncaughtException
deriving DecidableEq

/-- Result of one pipeline step: either a fatal error (stderr message
plus exit 1) or a value. -/
inductive Step (α : Type) where
  | err (e : Err)
  | ok (v : α)
deriving DecidableEq

/-- Embedding of read_config including the FileNotFoundError branch:
the config file contents are passed in as Option (none models a missing
file). -/
def read_config (configFile : Option (List String)) : Step (String → Option String) :=
  match configFile with
  | none => .err .configNotFound
  | some lines => .ok (read_config_lines lines)

/-- Embedding of generate_jwt: reads the config, requires a truthy
GITHUB_APP_ID (Python if not app_id catches both a missing key and an
empty value), reads the private key file, and builds the payload
{iss, iat: now-60, exp: now+600} at the sampled Unix time now.  The
RS256 signing step is abstracted away: the claim set is the payload
that gets signed. -/
def generate_jwt (configFile : Option (List String)) (privateKeyFile : Option String)
    (now : Int) : Step JwtPayload :=
  match read_config configFile with
  | .err e => .err e
  | .ok config =>
    match config "GITHUB_APP_ID" with
    | none => .err .missingAppID
    | some app_id =>
      if app_id = "" then .err .missingAppID
      else
        match privateKeyFile with
        | none => .err .privateKeyNotFound
        | some _ => .ok { iss := app_id, iat := now - 60, exp := now + 600 }

/-! ## Network responses and the installation-token exchange -/

/-- Parsed JSON body of the access-token POST, restricted to the two
fields the script reads; token = none models a JSON object with no
"token" key (Python: "token" not in data). -/
structure TokenResponse where
  token : Option String
  expires_at : Option String
deriving DecidableEq

/-- One entry of the repositories array; full_name = none models a
missing "full_name" key (read with repo.get("full_name", "")). -/
structure RepoEntry where
  full_name : Option String
deriving DecidableEq

/-- Parsed JSON body of the GET /installation/repositories call,
restricted to the fields the script reads (both read with .get and a
default). -/
structure ReposResponse where
  repositories : Option (List RepoEntry)
  total_count : Option Nat
deriving DecidableEq

/-- Outcome of a curl subprocess: its exit code and, when the script
gets to json.loads, the parse result (none models a JSONDecodeError). -/
structure CurlOutcome (α : Type) where
  exitCode : Int
  body : Option α
deriving DecidableEq

/-- Outcome of a git subprocess used by run_command: exit code and raw
stdout.  run_command returns "" on a non-zero exit and the stripped
stdout otherwise. -/
structure CmdOutcome where
  exitCode : Int
  stdout : String
deriving DecidableEq

/-- Embedding of run_command. -/
def run_command (r : CmdOutcome) : String :=
  if r.exitCode ≠ 0 then "" else pyStrip r.stdout

/-- Embedding of git_remote_full_name: parse the remote.origin.url
value read by git (empty when git fails). -/
def git_remote_full_name (r : CmdOutcome) : String :=
  parse_github_full_name (run_command r)

/-- Embedding of get_installation_token as a function of the curl
outcome: a non-zero exit is a transport error, an unparsable body is a
malformed response, a parsed object without a "token" key is
NoTokenInResponse, otherwise the parsed data is returned. -/
def get_installation_token (r : CurlOutcome TokenResponse) : Step TokenResponse :=
  if r.exitCode ≠ 0 then .err .transportError
  else
    match r.body with
    | none => .err .malformedResponse
    | some data =>
      if data.token = none then .err .noTokenInResponse
      else .ok data

/-- Embedding of list_installation_repositories as a function of the
curl outcome. -/
def list_installation_repositories (r : CurlOutcome ReposResponse) : Step ReposResponse :=
  if r.exitCode ≠ 0 then .err .transportError
  else
    match r.body with
    | none => .err .malformedResponse
    | some data => .ok data

/-- The full_name values collected from the repositories array (a set
in the Python code; only membership is ever used). -/
def visible_full_names (visible : ReposResponse) : List String :=
  (visible.repositories.getD []).map (fun r => r.full_name.getD "")

/-- Embedding of the validation step of the main block: the required
entries absent from the visible full names, as some missing when that
list is nonempty (the fatal MissingRequiredRepositories branch) and
none when validation passes. -/
def validate_required (required : List String) (visible : ReposResponse) :
    Option (List String) :=
  let missing := required.filter (fun repo => !(containsStr (visible_full_names visible) repo))
  if missing = [] then none else some missing

/-! ## The main block of the installation-token script -/

/-- Everything the main block reads from the outside world: the two
secret files, the two git invocations, and the two curl invocations. -/
structure World where
  configFile : Option (List String)
  privateKeyFile : Option String
  repoAiGit : CmdOutcome
  parentGit : CmdOutcome
  tokenCurl : CurlOutcome TokenResponse
  reposCurl : CurlOutcome ReposResponse

/-- The JSON object printed on success. -/
structure Output where
  token : String
  expires_at : String
  required_repositories : List String
  validated_repository_count : Nat
deriving DecidableEq

/-- Result of a whole run: fatal models an Error line on stderr plus
exit code 1, success models the JSON object printed to stdout plus
exit code 0. -/
inductive MainResult where
  | fatal (e : Err)
  | success (out : Output)
deriving DecidableEq

/-- Embedding of the main block of
github-app-get-installation-token.py, in source order: read config,
require a truthy GITHUB_INSTALLATION_ID, derive the required
repositories from the two git remotes, take the short names (an entry
without a "/" would raise IndexError, caught by the outer
except-Exception handler), generate the JWT, exchange it, list the
visible repositories, check the required ones are visible, and only
then print the output object. -/
def main (w : World) (now : Int) : MainResult :=
  match read_config w.configFile with
  | .err e => .fatal e
  | .ok config =>
    match config "GITHUB_INSTALLATION_ID" with
    | none => .fatal .missingInstallationID
    | some installation_id =>
      if installation_id = "" then .fatal .missingInstallationID
      else
        match derive_required_repositories (git_remote_full_name w.repoAiGit)
            (git_remote_full_name w.parentGit) with
        | none => .fatal .ownerUndetermined
        | some required_repositories =>
          match required_repositories.mapM
              (fun repo => if pyContains repo '/' then some (afterFirst repo '/') else none) with
          | none => .fatal .uncaughtException
          | some _repository_names =>
            match generate_jwt w.configFile w.privateKeyFile now with
            | .err e => .fatal e
            | .ok _jwt_token =>
              match get_installation_token w.tokenCurl with
              | .err e => .fatal e
              | .ok result =>
                match list_installation_repositories w.reposCurl with
                | .err e => .fatal e
                | .ok visible =>
                  match validate_required required_repositories visible with
                  | some missing => .fatal (.missingRequiredRepositories missing)
                  | none =>
                    .success
                      { token := result.token.getD ""
                        expires_at := result.expires_at.getD ""
                        required_repositories := required_repositories
                        validated_repository_count := visible.total_count.getD 0 }

/-- What a run writes to stdout: the single JSON object on success,
nothing on failure (the only print to stdout in the script is the last
statement of the main block). -/
def main_stdout (r : MainResult) : Option Output :=
  match r with
  | .fatal _ => none
  | .success out => some out

/-- Process exit code of a run. -/
def exit_code (r : MainResult) : Nat :=
  match r with
  | .fatal _ => 1
  | .success _ => 0

/-! ## Concrete worlds used as test vectors -/

/-- A run in which everything succeeds except that the installation
token cannot see the derived acme/fishdan-terraform repository. -/
def failValidationWorld : World :=
  { configFile := some ["GITHUB_APP_ID=1", "GITHUB_INSTALLATION_ID=2"]
    privateKeyFile := some "PEM"
    repoAiGit := ⟨0, "https://github.com/acme/a\n"⟩
    parentGit := ⟨0, "https://github.com/acme/b"⟩
    tokenCurl := ⟨0, some ⟨some "tok", some "2030-01-01T00:00:00Z"⟩⟩
    reposCurl := ⟨0, some ⟨some [⟨some "acme/a"⟩, ⟨some "acme/b"⟩], some 2⟩⟩ }

/-- A run in which the access-token response parses but has no token
field. -/
def noTokenWorld : World :=
  { configFile := some ["GITHUB_APP_ID=1", "GITHUB_INSTALLATION_ID=2"]
    privateKeyFile := some "PEM"
    repoAiGit := ⟨0, "https://github.com/acme/a\n"⟩
    parentGit := ⟨0, "https://github.com/acme/b"⟩
    tokenCurl := ⟨0, some ⟨none, some "2025-01-01T00:00:00Z"⟩⟩
    reposCurl := ⟨0, some ⟨some [], some 0⟩⟩ }

/-- A fully successful run; the API reports total_count = 5 while only
three repositories are required. -/
def successWorld : World :=
  { configFile := some ["GITHUB_APP_ID=1", "GITHUB_INSTALLATION_ID=2"]
    privateKeyFile := some "PEM"
    repoAiGit := ⟨0, "https://github.com/acme/a\n"⟩
    parentGit := ⟨0, "https://github.com/acme/b"⟩
    tokenCurl := ⟨0, some ⟨some "tok", some "2030-01-01T00:00:00Z"⟩⟩
    reposCurl := ⟨0, some ⟨some [⟨some "acme/a"⟩, ⟨some "acme/fishdan-terraform"⟩,
      ⟨some "acme/b"⟩], some 5⟩⟩ }

/-- The output object of the successful run above. -/
def successOutput : Output :=
  ⟨"tok", "2030-01-01T00:00:00Z", ["acme/a", "acme/fishdan-terraform", "acme/b"], 5⟩

/-- A run whose config assigns GITHUB_INSTALLATION_ID the empty
value. -/
def emptyIidWorld : World :=
  { configFile := some ["GITHUB_APP_ID=1", "GITHUB_INSTALLATION_ID="]
    privateKeyFile := some "PEM"
    repoAiGit := ⟨0, "https://github.com/acme/a"⟩
    parentGit := ⟨0, "https://github.com/acme/b"⟩
    tokenCurl := ⟨0, some ⟨some "tok", some "2030-01-01T00:00:00Z"⟩⟩
    reposCurl := ⟨0, some ⟨some [], some 0⟩⟩ }

/-! ## Supporting lemmas -/

theorem pyTruthy_iff (s : String) : pyTruthy s = true ↔ s ≠ "" := by
  obtain ⟨data⟩ := s
  cases data with
  | nil =>
    have he : (⟨[]⟩ : String) = "" := rfl
    simp [pyTruthy, he]
  | cons c cs =>
    have hne : (⟨c :: cs⟩ : String) ≠ "" := by
      intro h
      have h2 : c :: cs = [] := congrArg String.data h
      cases h2
    simp [pyTruthy, hne]

theorem pyTruthy_false_iff (s : String) : pyTruthy s = false ↔ s = "" := by
  constructor
  · intro h
    by_contra hne
    have := (pyTruthy_iff s).mpr hne
    rw [this] at h
    cases h
  · intro h; subst h; rfl

theorem data_append (a b : String) : (a ++ b).data = a.data ++ b.data := by
  obtain ⟨da⟩ := a
  obtain ⟨db⟩ := b
  rfl

theorem containsChar_iff (l : List Char) (c : Char) : containsChar l c = true ↔ c ∈ l := by
  induction l with
  | nil => simp [containsChar]
  | cons x xs ih =>
    by_cases h : x = c
    · subst h; simp [containsChar]
    · simp [containsChar, h, ih, Ne.symm h]

theorem containsStr_iff (l : List String) (s : String) : containsStr l s = true ↔ s ∈ l := by
  induction l with
  | nil => simp [containsStr]
  | cons x xs ih =>
    by_cases h : x = s
    · subst h; simp [containsStr]
    · simp [containsStr, h, ih, Ne.symm h]

theorem mem_takeWhile_sat {p : Char → Bool} {l : List Char} {x : Char}
    (h : x ∈ l.takeWhile p) : p x = true := by
  induction l with
  | nil => cases h
  | cons c cs ih =>
    rw [List.takeWhile] at h
    cases hc : p c with
    | false => rw [hc] at h; cases h
    | true =>
      rw [hc] at h
      cases h with
      | head => exact hc
      | tail _ hmem => exact ih hmem

theorem takeWhile_append_stop {p : Char → Bool} {l : List Char} (c : Char) (r : List Char)
    (hl : ∀ x ∈ l, p x = true) (hc : p c = false) :
    (l ++ c :: r).takeWhile p = l := by
  induction l with
  | nil => simp [List.takeWhile, hc]
  | cons x xs ih =>
    have hx : p x = true := hl x (List.mem_cons_self x xs)
    simp only [List.cons_append, List.takeWhile, hx, List.append_eq]
    rw [ih (fun y hy => hl y (List.mem_cons_of_mem x hy))]

theorem ownerOf_no_slash (s : String) : containsChar (ownerOf s).data '/' = false := by
  unfold ownerOf takeBefore
  cases h : containsChar (s.data.takeWhile (fun x => x ≠ '/')) '/' with
  | false => exact rfl
  | true =>
    exfalso
    have hmem := (containsChar_iff _ _).mp h
    have := mem_takeWhile_sat hmem
    simp at this

theorem ownerOf_append_slash (o rest : String)
    (ho : containsChar o.data '/' = false) (hr : rest.data = '/' :: rest.data.tail) :
    ownerOf (o ++ rest) = o := by
  unfold ownerOf takeBefore
  obtain ⟨od⟩ := o
  have hdata : ((⟨od⟩ : String) ++ rest).data = od ++ '/' :: rest.data.tail := by
    rw [data_append]
    exact congrArg (od ++ ·) hr
  rw [hdata]
  have hall : ∀ x ∈ od, (decide (x ≠ '/')) = true := by
    intro x hx
    by_contra hne
    simp at hne
    subst hne
    have := (containsChar_iff od '/').mpr hx
    rw [this] at ho
    cases ho
  rw [takeWhile_append_stop '/' rest.data.tail hall (by simp)]

theorem ownerOf_terraform (o : String) (ho : containsChar o.data '/' = false) :
    ownerOf (o ++ "/fishdan-terraform") = o :=
  ownerOf_append_slash o "/fishdan-terraform" ho rfl

theorem containsChar_append_mid (l : List Char) (c : Char) (r : List Char) :
    containsChar (l ++ c :: r) c = true := by
  induction l with
  | nil => simp [containsChar]
  | cons x xs ih =>
    by_cases h : x = c
    · simp [containsChar, h]
    · simp [containsChar, h, ih]

theorem pyContains_append_slash (a b : String) :
    pyContains (a ++ "/" ++ b) '/' = true := by
  unfold pyContains
  rw [data_append, data_append]
  have : ("/" : String).data = ['/'] := rfl
  rw [this]
  simp only [List.append_assoc, List.cons_append, List.nil_append]
  exact containsChar_append_mid a.data '/' b.data

/-- Every output of parse_github_full_name is empty or contains a
slash. -/
theorem parse_range (s : String) :
    parse_github_full_name s = "" ∨ pyContains (parse_github_full_name s) '/' = true := by
  unfold parse_github_full_name
  by_cases hs : s = ""
  · simp [hs]
  · rw [if_neg hs]
    have tail_range : ∀ t : String, parseTail t = "" ∨ pyContains (parseTail t) '/' = true := by
      intro t
      unfold parseTail
      split
      · next a b _ _ => right; exact pyContains_append_slash a b
      · left; rfl
    by_cases h1 : pyStartsWith (pyStrip s) "git@github.com:" = true
    · rw [if_pos h1]; exact tail_range _
    · rw [if_neg h1]
      by_cases h2 : pyStartsWith (pyStrip s) "https://github.com/" = true
      · rw [if_pos h2]; exact tail_range _
      · rw [if_neg h2]
        by_cases h3 : pyStartsWith (pyStrip s) "ssh://git@github.com/" = true
        · rw [if_pos h3]; exact tail_range _
        · rw [if_neg h3]; left; rfl

/-- Membership in the dedupe output: every entry comes from the input
list and is nonempty. -/
theorem mem_dedupe {l : List String} {e : String} (h : e ∈ dedupe l) :
    e ∈ l ∧ pyTruthy e = true := by
  unfold dedupe at h
  suffices H : ∀ (l : List String) (acc : List String), e ∈ l.foldl
      (fun acc repo => if pyTruthy repo && !(containsStr acc repo) then acc ++ [repo] else acc) acc →
      e ∈ acc ∨ (e ∈ l ∧ pyTruthy e = true) by
    rcases H l [] h with hacc | hok
    · cases hacc
    · exact hok
  intro l
  induction l with
  | nil => intro acc h; exact Or.inl h
  | cons x xs ih =>
    intro acc h
    rw [List.foldl_cons] at h
    rcases ih _ h with hacc | hok
    · by_cases hc : (pyTruthy x && !(containsStr acc x)) = true
      · rw [if_pos hc] at hacc
        rcases List.mem_append.mp hacc with h1 | h2
        · exact Or.inl h1
        · have hex : e = x := List.mem_singleton.mp h2
          subst hex
          have hc2 : pyTruthy e = true := by
            simp only [Bool.and_eq_true] at hc
            exact hc.1
          exact Or.inr ⟨List.mem_cons_self _ _, hc2⟩
      · rw [if_neg hc] at hacc
        exact Or.inl hacc
    · exact Or.inr ⟨List.mem_cons_of_mem _ hok.1, hok.2⟩

theorem emptiness_if_swap {α : Type} (s : String) (x : α) :
    (if s = "" then (none : Option α) else some x) = if pyTruthy s then some x else none := by
  by_cases h : s = ""
  · subst h
    rw [if_pos rfl]
    have hf : pyTruthy "" = false := rfl
    rw [hf]
    simp
  · rw [if_neg h, (pyTruthy_iff s).mpr h]
    simp

theorem foldl_configStep (lines : List String) (acc : String → Option String) (k : String) :
    (lines.foldl configStep acc) k =
      match readConfigAmended lines k with
      | some v => some v
      | none => acc k := by
  induction lines generalizing acc with
  | nil => rfl
  | cons line rest ih =>
    rw [List.foldl_cons, ih (configStep acc line)]
    cases hr : readConfigAmended rest k with
    | some v => simp only [readConfigAmended, hr]
    | none =>
      simp only [readConfigAmended, hr, configStep]
      by_cases hc : pyContains line '=' = true
      · by_cases hk : k = takeBefore (pyStrip line) '='
        · simp [hc, hk]
        · simp [hc, hk]
      · simp [hc]

/-! ## Claim theorems -/

/-- C1: for every configuration file, private key file, and Unix time
sampled at issuance, a payload issued by generate_jwt has exactly the
claim set iss = the configured GITHUB_APP_ID, iat = now - 60,
exp = now + 600; hence exp - iat = 660 and now - iat = 60. -/
theorem C1_jwt_claim_set (configFile : Option (List String))
    (privateKeyFile : Option String) (now : Int) (p : JwtPayload)
    (h : generate_jwt configFile privateKeyFile now = .ok p) :
    (∃ lines, configFile = some lines ∧
      read_config_lines lines "GITHUB_APP_ID" = some p.iss ∧ p.iss ≠ "") ∧
    p.iat = now - 60 ∧ p.exp = now + 600 ∧
    p.exp - p.iat = 660 ∧ now - p.iat = 60 := by
  unfold generate_jwt read_config at h
  cases configFile with
  | none => cases h
  | some lines =>
    cases hl : read_config_lines lines "GITHUB_APP_ID" with
    | none => simp only [hl] at h; cases h
    | some app_id =>
      simp only [hl] at h
      by_cases ha : app_id = ""
      · rw [if_pos ha] at h; cases h
      · rw [if_neg ha] at h
        cases privateKeyFile with
        | none => cases h
        | some pem =>
          cases h
          refine ⟨⟨lines, rfl, hl, ha⟩, rfl, rfl, ?_, ?_⟩
          · show (now + 600) - (now - 60) = 660
            omega
          · show now - (now - 60) = 60
            omega

/-- C1 witness: concrete issuance at now = 1000 with app id 123. -/
theorem C1_jwt_claim_set_witness :
    (∃ lines, (some ["GITHUB_APP_ID=123"] : Option (List String)) = some lines ∧
      read_config_lines lines "GITHUB_APP_ID" =
        some (JwtPayload.mk "123" 940 1600).iss ∧ (JwtPayload.mk "123" 940 1600).iss ≠ "") ∧
    (JwtPayload.mk "123" 940 1600).iat = 1000 - 60 ∧
    (JwtPayload.mk "123" 940 1600).exp = 1000 + 600 ∧
    (JwtPayload.mk "123" 940 1600).exp - (JwtPayload.mk "123" 940 1600).iat = 660 ∧
    1000 - (JwtPayload.mk "123" 940 1600).iat = 60 :=
  C1_jwt_claim_set (some ["GITHUB_APP_ID=123"]) (some "PEM") 1000
    (JwtPayload.mk "123" 940 1600) (by decide)

/-- C2 counterexample: an input with a leading space matches none of
the three prefixes, so the claim requires the empty string, but the
code strips surrounding whitespace first and parses it. -/
theorem C2_counterexample :
    parse_github_full_name " git@github.com:acme/widgets" = "acme/widgets" ∧
    parseClaimLiteral " git@github.com:acme/widgets" = "" ∧
    pyStartsWith " git@github.com:acme/widgets" "git@github.com:" = false ∧
    pyStartsWith " git@github.com:acme/widgets" "https://github.com/" = false ∧
    pyStartsWith " git@github.com:acme/widgets" "ssh://git@github.com/" = false := by
  decide

/-- C2 amended: parse_github_full_name behaves exactly as the claim
describes after the input is first trimmed of surrounding whitespace;
in particular the three GitHub URL shapes map to acme/widgets and the
gitlab URL maps to the empty string. -/
theorem C2_parse_amended :
    (∀ s : String, parse_github_full_name s = parseClaimLiteral (pyStrip s)) ∧
    parse_github_full_name "git@github.com:acme/widgets.git" = "acme/widgets" ∧
    parse_github_full_name "https://github.com/acme/widgets" = "acme/widgets" ∧
    parse_github_full_name "ssh://git@github.com/acme/widgets.git" = "acme/widgets" ∧
    parse_github_full_name "https://gitlab.com/acme/widgets" = "" := by
  refine ⟨?_, by decide, by decide, by decide, by decide⟩
  intro s
  by_cases hs : s = ""
  · subst hs; decide
  · unfold parse_github_full_name
    rw [if_neg hs]
    rfl

/-- C3 counterexample: with this-repo identity acme/b and parent
identity /x (both reachable outputs of the URL parser), the parent
identity yields no owner while this repository's does, so the claim
requires the fallback to succeed with owner acme; the code instead
commits to the parent branch, computes an empty owner, and fails with
OwnerUndetermined. -/
theorem C3_counterexample :
    derive_required_repositories "acme/b" "/x" = none ∧
    deriveClaimLiteral "acme/b" "/x" = some ["acme/b", "acme/fishdan-terraform", "/x"] ∧
    yieldsOwner "/x" = false ∧
    yieldsOwner "acme/b" = true ∧
    parse_github_full_name "https://github.com/acme/b" = "acme/b" ∧
    parse_github_full_name "https://github.com//x" = "/x" := by
  decide

/-- C3 amended: the owner comes from the parent identity whenever that
identity is nonempty and contains a slash (with no fallback in that
case, even when the segment before the slash is empty), else from this
repository's identity under the same condition, and the derivation
fails exactly when the owner so chosen is empty; on success the list
[this-repo, owner/fishdan-terraform, parent-repo] is deduplicated with
empty entries dropped, preserving first-occurrence order.  In
particular the acme/dotrepo, acme/parentrepo instance gives exactly the
three-element list of the claim. -/
theorem C3_derive_amended :
    (∀ ra p : String, derive_required_repositories ra p = deriveAmended ra p) ∧
    derive_required_repositories "acme/dotrepo" "acme/parentrepo" =
      some ["acme/dotrepo", "acme/fishdan-terraform", "acme/parentrepo"] := by
  refine ⟨?_, by decide⟩
  intro ra p
  simp only [derive_required_repositories, deriveAmended, ownerOf]
  exact emptiness_if_swap _ _

/-- C5 counterexample: on the line " A = b " the code strips the whole
line before splitting, producing key "A " (leading space removed,
trailing space kept) and value " b" (leading space kept); the claim
instead requires key " A " (the raw substring before the first =) and
value "b" (trimmed on both sides). -/
theorem C5_counterexample :
    read_config_lines [" A = b "] "A " = some " b" ∧
    read_config_lines [" A = b "] " A " = none ∧
    readConfigClaimLiteral [" A = b "] " A " = some "b" ∧
    readConfigClaimLiteral [" A = b "] "A " = none := by
  decide

/-- C5 amended: each line containing = is first trimmed of surrounding
whitespace and then split at the first =; the key is the part before
the = and the value the part after, with no further trimming of
either; lines without = are ignored; the last occurrence of a
duplicate key wins. -/
theorem C5_read_config_amended :
    (∀ (lines : List String) (k : String),
      read_config_lines lines k = readConfigAmended lines k) ∧
    read_config_lines ["A=1", "A=2"] "A" = some "2" ∧
    read_config_lines ["A=1", "nokey", "B=3"] "B" = some "3" ∧
    read_config_lines ["nokey"] "nokey" = none := by
  refine ⟨?_, by decide, by decide, by decide⟩
  intro lines k
  unfold read_config_lines
  rw [foldl_configStep lines (fun _ => none) k]
  cases readConfigAmended lines k <;> rfl

theorem pyContains_terraform (o : String) : pyContains (o ++ "/fishdan-terraform") '/' = true := by
  unfold pyContains
  rw [data_append]
  have h : ("/fishdan-terraform" : String).data = '/' :: "fishdan-terraform".data := rfl
  rw [h]
  exact containsChar_append_mid o.data '/' _

/-- Shape of every successful derivation: some owner string ow chosen
by the if/elif chain, nonempty, with the result the deduplication of
[this-repo, ow/fishdan-terraform, parent-repo]. -/
theorem derive_success_shape (ra pv : String) (l : List String)
    (hd : derive_required_repositories ra pv = some l) :
    ∃ ow, ow ≠ "" ∧ l = dedupe [ra, ow ++ "/fishdan-terraform", pv] ∧
      ((pyTruthy pv && pyContains pv '/') = true ∧ ow = takeBefore pv '/' ∨
       (pyTruthy pv && pyContains pv '/') = false ∧
         (pyTruthy ra && pyContains ra '/') = true ∧ ow = takeBefore ra '/') := by
  simp only [derive_required_repositories] at hd
  by_cases h1 : (pyTruthy pv && pyContains pv '/') = true
  · rw [if_pos h1] at hd
    by_cases ho : takeBefore pv '/' = ""
    · rw [if_pos ho] at hd; cases hd
    · rw [if_neg ho] at hd
      injection hd with hl
      exact ⟨takeBefore pv '/', ho, hl.symm, Or.inl ⟨h1, rfl⟩⟩
  · rw [if_neg h1] at hd
    have h1f : (pyTruthy pv && pyContains pv '/') = false := by
      cases hb : (pyTruthy pv && pyContains pv '/') with
      | false => rfl
      | true => exact absurd hb h1
    by_cases h2 : (pyTruthy ra && pyContains ra '/') = true
    · rw [if_pos h2] at hd
      by_cases ho : takeBefore ra '/' = ""
      · rw [if_pos ho] at hd; cases hd
      · rw [if_neg ho] at hd
        injection hd with hl
        exact ⟨takeBefore ra '/', ho, hl.symm, Or.inr ⟨h1f, h2, rfl⟩⟩
    · rw [if_neg h2, if_pos rfl] at hd
      cases hd

/-- The chosen owner is the same for every entry of a successful
derivation, provided the two identities are in the range of the URL
parser (empty or slash-containing) and this repository's identity is
empty or agrees with the parent identity on the owner. -/
theorem derive_owner_const (ra pv : String) (l : List String)
    (hpv : pv = "" ∨ pyContains pv '/' = true)
    (hcompat : ra = "" ∨ pv = "" ∨ ownerOf ra = ownerOf pv)
    (hd : derive_required_repositories ra pv = some l) :
    ∃ o, ∀ e ∈ l, ownerOf e = o := by
  obtain ⟨ow, -, hl, hbr⟩ := derive_success_shape ra pv l hd
  subst hl
  refine ⟨ow, ?_⟩
  intro e he
  have hm := mem_dedupe he
  have htr := hm.2
  have hmem := hm.1
  simp only [List.mem_cons, List.not_mem_nil, or_false] at hmem
  rcases hmem with h | h | h
  · subst h
    rcases hbr with ⟨h1, howner⟩ | ⟨_, _, howner⟩
    · have hene : e ≠ "" := (pyTruthy_iff e).mp htr
      have hpvne : pv ≠ "" := by
        have := (Bool.and_eq_true _ _).mp h1
        exact (pyTruthy_iff pv).mp this.1
      rcases hcompat with hc | hc | hc
      · exact absurd hc hene
      · exact absurd hc hpvne
      · rw [howner]; exact hc
    · rw [howner]; rfl
  · subst h
    rcases hbr with ⟨_, howner⟩ | ⟨_, _, howner⟩ <;>
      exact ownerOf_terraform ow (howner ▸ ownerOf_no_slash _)
  · subst h
    rcases hbr with ⟨_, howner⟩ | ⟨h1f, _, _⟩
    · rw [howner]; rfl
    · exfalso
      have hene : e ≠ "" := (pyTruthy_iff e).mp htr
      rcases hpv with hz | hc
      · exact hene hz
      · rw [htr, hc] at h1f
        cases h1f

/-- C4 counterexample: two reachable remote-URL identities with
different owners produce a successful derivation whose entries do not
all share the owner segment, refuting the claim for all identity
values. -/
theorem C4_counterexample :
    derive_required_repositories "acme/dotrepo" "bob/x" =
      some ["acme/dotrepo", "bob/fishdan-terraform", "bob/x"] ∧
    ownerOf "acme/dotrepo" = "acme" ∧
    ownerOf "bob/fishdan-terraform" = "bob" ∧
    ("acme" : String) ≠ "bob" ∧
    parse_github_full_name "https://github.com/acme/dotrepo" = "acme/dotrepo" ∧
    parse_github_full_name "https://github.com/bob/x" = "bob/x" := by
  decide

/-- C4 amended: when the two identities come from
parse_github_full_name and this repository's identity is empty or
shares its owner segment with the parent identity, all entries of a
successfully derived list have the same owner segment. -/
theorem C4_owner_shared (u v : String) (l : List String)
    (hd : derive_required_repositories (parse_github_full_name u)
      (parse_github_full_name v) = some l)
    (hcompat : parse_github_full_name u = "" ∨ parse_github_full_name v = "" ∨
      ownerOf (parse_github_full_name u) = ownerOf (parse_github_full_name v)) :
    ∀ e1 ∈ l, ∀ e2 ∈ l, ownerOf e1 = ownerOf e2 := by
  obtain ⟨o, ho⟩ := derive_owner_const _ _ l (parse_range v) hcompat hd
  intro e1 h1 e2 h2
  rw [ho e1 h1, ho e2 h2]

/-- C4 witness: concretely, two same-owner remotes give entries whose
owner segments agree. -/
theorem C4_owner_shared_witness :
    ownerOf "acme/a" = ownerOf "acme/fishdan-terraform" :=
  C4_owner_shared "https://github.com/acme/a" "https://github.com/acme/b"
    ["acme/a", "acme/fishdan-terraform", "acme/b"] (by decide) (by decide)
    "acme/a" (by decide) "acme/fishdan-terraform" (by decide)

/-- C10: every parse_github_full_name output is empty or contains a
slash, and every entry of a required-repository list derived from two
parsed remote URLs contains a slash, so the short-name extraction
repo.split with maxsplit 1 always yields two segments and indexing the
second is safe. -/
theorem C10_entries_have_slash :
    (∀ s, parse_github_full_name s = "" ∨
      pyContains (parse_github_full_name s) '/' = true) ∧
    (∀ u v l, derive_required_repositories (parse_github_full_name u)
        (parse_github_full_name v) = some l →
      ∀ e ∈ l, pyContains e '/' = true ∧ (splitOnce e '/').length = 2) := by
  refine ⟨parse_range, ?_⟩
  intro u v l hd e he
  obtain ⟨ow, -, hl, -⟩ := derive_success_shape _ _ l hd
  subst hl
  have hm := mem_dedupe he
  have htr := hm.2
  have hmem := hm.1
  simp only [List.mem_cons, List.not_mem_nil, or_false] at hmem
  have hcont : pyContains e '/' = true := by
    rcases hmem with h | h | h
    · subst h
      rcases parse_range u with hz | hc
      · rw [hz] at htr; exact absurd htr (by decide)
      · exact hc
    · subst h
      exact pyContains_terraform ow
    · subst h
      rcases parse_range v with hz | hc
      · rw [hz] at htr; exact absurd htr (by decide)
      · exact hc
  refine ⟨hcont, ?_⟩
  unfold splitOnce
  rw [if_pos hcont]
  rfl

/-- C10 witness: concrete derivation whose terraform entry splits into
exactly two segments. -/
theorem C10_entries_have_slash_witness :
    pyContains "acme/fishdan-terraform" '/' = true ∧
    (splitOnce "acme/fishdan-terraform" '/').length = 2 :=
  C10_entries_have_slash.2 "https://github.com/acme/a" "https://github.com/acme/b"
    ["acme/a", "acme/fishdan-terraform", "acme/b"] (by decide)
    "acme/fishdan-terraform" (by decide)

theorem generate_jwt_err_range (lines : List String) (pk : Option String) (now : Int) (e : Err)
    (h : generate_jwt (some lines) pk now = .err e) :
    e = .missingAppID ∨ e = .privateKeyNotFound := by
  unfold generate_jwt read_config at h
  cases hl : read_config_lines lines "GITHUB_APP_ID" with
  | none =>
    simp only [hl] at h
    injection h with h2
    exact Or.inl h2.symm
  | some a =>
    simp only [hl] at h
    by_cases ha : a = ""
    · rw [if_pos ha] at h
      injection h with h2
      exact Or.inl h2.symm
    · rw [if_neg ha] at h
      cases pk with
      | none =>
        injection h with h2
        exact Or.inr h2.symm
      | some p => cases h

theorem get_installation_token_err_range (r : CurlOutcome TokenResponse) (e : Err)
    (h : get_installation_token r = .err e) :
    e = .transportError ∨ e = .malformedResponse ∨ e = .noTokenInResponse := by
  unfold get_installation_token at h
  by_cases hc : r.exitCode ≠ 0
  · rw [if_pos hc] at h
    injection h with h2
    exact Or.inl h2.symm
  · rw [if_neg hc] at h
    cases hb : r.body with
    | none =>
      simp only [hb] at h
      injection h with h2
      exact Or.inr (Or.inl h2.symm)
    | some data =>
      simp only [hb] at h
      by_cases ht : data.token = none
      · rw [if_pos ht] at h
        injection h with h2
        exact Or.inr (Or.inr h2.symm)
      · rw [if_neg ht] at h
        cases h

theorem list_repos_err_range (r : CurlOutcome ReposResponse) (e : Err)
    (h : list_installation_repositories r = .err e) :
    e = .transportError ∨ e = .malformedResponse := by
  unfold list_installation_repositories at h
  by_cases hc : r.exitCode ≠ 0
  · rw [if_pos hc] at h
    injection h with h2
    exact Or.inl h2.symm
  · rw [if_neg hc] at h
    cases hb : r.body with
    | none =>
      rw [hb] at h
      injection h with h2
      exact Or.inr h2.symm
    | some data =>
      rw [hb] at h
      cases h

theorem list_repos_ok_body (r : CurlOutcome ReposResponse) (v : ReposResponse)
    (h : list_installation_repositories r = .ok v) : r.body = some v := by
  unfold list_installation_repositories at h
  by_cases hc : r.exitCode ≠ 0
  · rw [if_pos hc] at h; cases h
  · rw [if_neg hc] at h
    cases hb : r.body with
    | none => rw [hb] at h; cases h
    | some data =>
      rw [hb] at h
      injection h with h2
      rw [h2]

/-- A successful run read its visible-repositories response from the
repositories curl call, and its reported count is that response's
total_count (defaulted to 0). -/
theorem main_success_reposCurl (w : World) (now : Int) (out : Output)
    (h : main w now = .success out) :
    ∃ visible, w.reposCurl.body = some visible ∧
      out.validated_repository_count = visible.total_count.getD 0 := by
  unfold main at h
  cases hc : read_config w.configFile with
  | err e => simp only [hc] at h; cases h
  | ok config =>
    simp only [hc] at h
    cases hi : config "GITHUB_INSTALLATION_ID" with
    | none => simp only [hi] at h; cases h
    | some iid =>
      simp only [hi] at h
      by_cases hie : iid = ""
      · rw [if_pos hie] at h; cases h
      · rw [if_neg hie] at h
        cases hdv : derive_required_repositories (git_remote_full_name w.repoAiGit)
            (git_remote_full_name w.parentGit) with
        | none => simp only [hdv] at h; cases h
        | some required =>
          simp only [hdv] at h
          cases hn : required.mapM
              (fun repo => if pyContains repo '/' then some (afterFirst repo '/') else none) with
          | none => simp only [hn] at h; cases h
          | some names =>
            simp only [hn] at h
            cases hj : generate_jwt w.configFile w.privateKeyFile now with
            | err e => simp only [hj] at h; cases h
            | ok jwt =>
              simp only [hj] at h
              cases hg : get_installation_token w.tokenCurl with
              | err e => simp only [hg] at h; cases h
              | ok result =>
                simp only [hg] at h
                cases hlr : list_installation_repositories w.reposCurl with
                | err e => simp only [hlr] at h; cases h
                | ok visible =>
                  simp only [hlr] at h
                  cases hv : validate_required required visible with
                  | some missing => simp only [hv] at h; cases h
                  | none =>
                    simp only [hv] at h
                    cases h
                    exact ⟨visible, list_repos_ok_body _ _ hlr, rfl⟩

/-- A fatal MissingInstallationID can only come from the lookup right
after the config read, so the looked-up value was absent or empty. -/
theorem main_missingInstallationID_bad (w : World) (now : Int) (lines : List String)
    (hcf : w.configFile = some lines)
    (h : main w now = .fatal .missingInstallationID) :
    read_config_lines lines "GITHUB_INSTALLATION_ID" = none ∨
    read_config_lines lines "GITHUB_INSTALLATION_ID" = some "" := by
  unfold main at h
  rw [hcf] at h
  simp only [read_config] at h
  cases hi : read_config_lines lines "GITHUB_INSTALLATION_ID" with
  | none => exact Or.inl rfl
  | some iid =>
    simp only [hi] at h
    by_cases hie : iid = ""
    · exact Or.inr (by rw [hie])
    · exfalso
      rw [if_neg hie] at h
      cases hdv : derive_required_repositories (git_remote_full_name w.repoAiGit)
          (git_remote_full_name w.parentGit) with
      | none =>
        simp only [hdv] at h
        injection h with h2
        cases h2
      | some required =>
        simp only [hdv] at h
        cases hn : required.mapM
            (fun repo => if pyContains repo '/' then some (afterFirst repo '/') else none) with
        | none =>
          simp only [hn] at h
          injection h with h2
          cases h2
        | some names =>
          simp only [hn] at h
          cases hj : generate_jwt (some lines) w.privateKeyFile now with
          | err e =>
            simp only [hj] at h
            injection h with h2
            rcases generate_jwt_err_range lines w.privateKeyFile now e hj with h3 | h3 <;>
              rw [h3] at h2 <;> cases h2
          | ok jwt =>
            simp only [hj] at h
            cases hg : get_installation_token w.tokenCurl with
            | err e =>
              simp only [hg] at h
              injection h with h2
              rcases get_installation_token_err_range _ e hg with h3 | h3 | h3 <;>
                rw [h3] at h2 <;> cases h2
            | ok result =>
              simp only [hg] at h
              cases hlr : list_installation_repositories w.reposCurl with
              | err e =>
                simp only [hlr] at h
                injection h with h2
                rcases list_repos_err_range _ e hlr with h3 | h3 <;>
                  rw [h3] at h2 <;> cases h2
              | ok visible =>
                simp only [hlr] at h
                cases hv : validate_required required visible with
                | some missing =>
                  simp only [hv] at h
                  injection h with h2
                  cases h2
                | none => simp only [hv] at h; cases h

/-- Conversely, an absent or empty GITHUB_INSTALLATION_ID value fires
the fatal MissingInstallationID check immediately. -/
theorem main_missingInstallationID_fires (w : World) (now : Int) (lines : List String)
    (hcf : w.configFile = some lines)
    (hbad : read_config_lines lines "GITHUB_INSTALLATION_ID" = none ∨
      read_config_lines lines "GITHUB_INSTALLATION_ID" = some "") :
    main w now = .fatal .missingInstallationID := by
  unfold main
  rw [hcf]
  simp only [read_config]
  rcases hbad with hb | hb <;> simp [hb]

/-- C6: the validation step computes exactly the required entries that
do not appear among the full_name values of the visible-repositories
response (in required-list order), passes exactly when there are none,
and a nonempty difference makes the whole run fatal with exit code 1,
naming exactly the missing entries, with nothing written to stdout; in
particular required [acme/a, acme/b] against a response showing only
acme/a fails naming acme/b. -/
theorem C6_missing_repositories :
    (∀ (required : List String) (visible : ReposResponse) (m : List String),
      validate_required required visible = some m →
        m = required.filter (fun r => !(containsStr (visible_full_names visible) r)) ∧
        m ≠ [] ∧
        (∀ r, r ∈ m ↔ r ∈ required ∧ ¬ r ∈ visible_full_names visible) ∧
        m.Sublist required) ∧
    (∀ (required : List String) (visible : ReposResponse),
      validate_required required visible = none ↔
        ∀ r ∈ required, r ∈ visible_full_names visible) ∧
    validate_required ["acme/a", "acme/b"] ⟨some [⟨some "acme/a"⟩], some 1⟩ =
      some ["acme/b"] ∧
    main failValidationWorld 0 =
      .fatal (.missingRequiredRepositories ["acme/fishdan-terraform"]) ∧
    main_stdout (main failValidationWorld 0) = none ∧
    exit_code (main failValidationWorld 0) = 1 := by
  refine ⟨?_, ?_, by decide, by decide, by decide, by decide⟩
  · intro required visible m h
    unfold validate_required at h
    by_cases hm : required.filter (fun r => !(containsStr (visible_full_names visible) r)) = []
    · rw [if_pos hm] at h; cases h
    · rw [if_neg hm] at h
      injection h with h2
      subst h2
      refine ⟨rfl, hm, ?_, List.filter_sublist _⟩
      intro r
      rw [List.mem_filter]
      constructor
      · rintro ⟨hr, hb⟩
        refine ⟨hr, ?_⟩
        intro hmem
        rw [(containsStr_iff _ _).mpr hmem] at hb
        simp at hb
      · rintro ⟨hr, hnm⟩
        refine ⟨hr, ?_⟩
        cases hb : containsStr (visible_full_names visible) r with
        | false => rfl
        | true => exact absurd ((containsStr_iff _ _).mp hb) hnm
  · intro required visible
    unfold validate_required
    by_cases hm : required.filter (fun r => !(containsStr (visible_full_names visible) r)) = []
    · rw [if_pos hm]
      simp only [true_iff]
      intro r hr
      by_contra hnm
      have hpred : (!(containsStr (visible_full_names visible) r)) = true := by
        cases hb : containsStr (visible_full_names visible) r with
        | false => rfl
        | true => exact absurd ((containsStr_iff _ _).mp hb) hnm
      have : r ∈ required.filter (fun r => !(containsStr (visible_full_names visible) r)) :=
        List.mem_filter.mpr ⟨hr, hpred⟩
      rw [hm] at this
      cases this
    · rw [if_neg hm]
      constructor
      · intro h; cases h
      · intro hall
        exfalso
        apply hm
        rw [List.filter_eq_nil_iff]
        intro r hr
        rw [(containsStr_iff _ _).mpr (hall r hr)]
        simp

/-- C6 witness: the claim instance, with the missing-entry list
characterized through the theorem. -/
theorem C6_missing_repositories_witness :
    ["acme/b"] =
      ["acme/a", "acme/b"].filter
        (fun r => !(containsStr
          (visible_full_names ⟨some [⟨some "acme/a"⟩], some 1⟩) r)) ∧
    (["acme/b"] : List String) ≠ [] ∧
    (∀ r, r ∈ (["acme/b"] : List String) ↔
      r ∈ (["acme/a", "acme/b"] : List String) ∧
        ¬ r ∈ visible_full_names ⟨some [⟨some "acme/a"⟩], some 1⟩) ∧
    List.Sublist ["acme/b"] ["acme/a", "acme/b"] :=
  C6_missing_repositories.1 ["acme/a", "acme/b"] ⟨some [⟨some "acme/a"⟩], some 1⟩
    ["acme/b"] (by decide)

/-- C7: with a zero curl exit code, get_installation_token fails with
NoTokenInResponse exactly when the parsed response has no token field,
a JSON parse failure is likewise fatal, the documented
expires_at-only response is fatal, and the whole run then exits 1 with
nothing on stdout. -/
theorem C7_no_token :
    (∀ data : TokenResponse,
      get_installation_token ⟨0, some data⟩ = .err .noTokenInResponse ↔
        data.token = none) ∧
    get_installation_token ⟨0, none⟩ = .err .malformedResponse ∧
    get_installation_token ⟨0, some ⟨none, some "2025-01-01T00:00:00Z"⟩⟩ =
      .err .noTokenInResponse ∧
    main noTokenWorld 0 = .fatal .noTokenInResponse ∧
    main_stdout (main noTokenWorld 0) = none ∧
    exit_code (main noTokenWorld 0) = 1 := by
  refine ⟨?_, by decide, by decide, by decide, by decide, by decide⟩
  intro data
  cases ht : data.token with
  | none => simp [get_installation_token, ht]
  | some t => simp [get_installation_token, ht]

/-- C7 witness: the theorem applied to the expires_at-only response. -/
theorem C7_no_token_witness :
    (⟨none, some "2025-01-01T00:00:00Z"⟩ : TokenResponse).token = none :=
  (C7_no_token.1 ⟨none, some "2025-01-01T00:00:00Z"⟩).mp (by decide)

/-- C8: a failing run writes nothing to stdout and exits 1; a
successful run writes exactly one output object whose
validated_repository_count is the total_count reported by the
visible-repositories response, and concretely that count can differ
from the number of required repositories. -/
theorem C8_stdout_discipline :
    (∀ (w : World) (now : Int) (e : Err), main w now = .fatal e →
      main_stdout (main w now) = none ∧ exit_code (main w now) = 1) ∧
    (∀ (w : World) (now : Int) (out : Output), main w now = .success out →
      main_stdout (main w now) = some out ∧ exit_code (main w now) = 0 ∧
      ∃ visible, w.reposCurl.body = some visible ∧
        out.validated_repository_count = visible.total_count.getD 0) ∧
    main successWorld 0 = .success successOutput ∧
    successOutput.validated_repository_count = 5 ∧
    successOutput.required_repositories.length = 3 := by
  refine ⟨?_, ?_, by decide, by decide, by decide⟩
  · intro w now e h
    rw [h]
    exact ⟨rfl, rfl⟩
  · intro w now out h
    rw [h]
    exact ⟨rfl, rfl, main_success_reposCurl w now out h⟩

/-- C8 witness: the theorem applied to the successful world and to a
failing one. -/
theorem C8_stdout_discipline_witness :
    (main_stdout (main successWorld 0) = some successOutput ∧
      exit_code (main successWorld 0) = 0 ∧
      ∃ visible, successWorld.reposCurl.body = some visible ∧
        successOutput.validated_repository_count = visible.total_count.getD 0) ∧
    (main_stdout (main failValidationWorld 0) = none ∧
      exit_code (main failValidationWorld 0) = 1) :=
  ⟨C8_stdout_discipline.2.1 successWorld 0 successOutput (by decide),
   C8_stdout_discipline.1 failValidationWorld 0
     (.missingRequiredRepositories ["acme/fishdan-terraform"]) (by decide)⟩

/-- C9: the fatal MissingAppID check of generate_jwt fires exactly when
the configured GITHUB_APP_ID is absent or empty, and the fatal
MissingInstallationID check of the main block fires exactly when the
configured GITHUB_INSTALLATION_ID is absent or empty. -/
theorem C9_empty_ids_fatal :
    (∀ (lines : List String) (pk : Option String) (now : Int),
      generate_jwt (some lines) pk now = .err .missingAppID ↔
        (read_config_lines lines "GITHUB_APP_ID" = none ∨
         read_config_lines lines "GITHUB_APP_ID" = some "")) ∧
    (∀ (lines : List String) (w : World) (now : Int), w.configFile = some lines →
      (main w now = .fatal .missingInstallationID ↔
        (read_config_lines lines "GITHUB_INSTALLATION_ID" = none ∨
         read_config_lines lines "GITHUB_INSTALLATION_ID" = some ""))) := by
  constructor
  · intro lines pk now
    unfold generate_jwt read_config
    cases hl : read_config_lines lines "GITHUB_APP_ID" with
    | none => simp [hl]
    | some app_id =>
      by_cases ha : app_id = ""
      · subst ha; simp [hl]
      · cases pk with
        | none => simp [hl, ha]
        | some pem => simp [hl, ha]
  · intro lines w now hcf
    constructor
    · exact main_missingInstallationID_bad w now lines hcf
    · exact main_missingInstallationID_fires w now lines hcf

/-- C9 witness: empty-valued keys fire both checks. -/
theorem C9_empty_ids_fatal_witness :
    generate_jwt (some ["GITHUB_APP_ID="]) (some "PEM") 0 = .err .missingAppID ∧
    main emptyIidWorld 0 = .fatal .missingInstallationID :=
  ⟨(C9_empty_ids_fatal.1 ["GITHUB_APP_ID="] (some "PEM") 0).mpr (Or.inr (by decide)),
   (C9_empty_ids_fatal.2 ["GITHUB_APP_ID=1", "GITHUB_INSTALLATION_ID="] emptyIidWorld 0
     rfl).mpr (Or.inr (by decide))⟩

end RepoAi
